import Mathlib

/-!
Verification of the dws document-scanning service's rule engine
(`src/engine/engine.go` and the rule-load paths in `src/api/handlers.go`)
against its natural-language specification.

The engine stores a process-wide list of regular-expression rules and
evaluates text line-by-line against them.  We embed the engine shallowly:

* Go's `regexp` package is modelled by an executable regular-expression
  core (`Regexp`, Brzozowski-derivative matching) together with a parser
  `goCompile` for the RE2 syntax fragment the repository exercises:
  literals, `.`, character classes, groups, `(?s)`/`(?i)`/`(?m)` flag
  groups, `(?:...)`, alternation, escapes of punctuation, and the postfix
  operators `*`, `+`, `?` with RE2's rules that a postfix operator needs a
  preceding operand and that the only operator allowed after a repetition
  is a single lazy `?`.  Constructs outside this fragment (anchors,
  counted repetition, named classes) are rejected by the model; no claim
  depends on them.
* `Evaluate` returns `Option (List Finding)`: `none` models a Go panic
  (the nil-pointer dereference reachable in debug mode), `some fs` a
  normal return of the findings slice.
* The mutable package globals (`currentRules`) are an explicit
  `EngineState`; the `debugMode` global is an explicit boolean argument.
* `LoadRulesFromYAML`'s file read and YAML unmarshal are I/O, so the
  function is modelled from the point where a parsed rule list (or a
  read/parse error) is available, exactly as the Go code continues from
  `yaml.Unmarshal`.
-/

namespace DWS

/-- Regular expressions: the abstract syntax produced by the model of
`regexp.Compile`.  `cls neg ranges` is a character class given by
inclusive ranges, negated when `neg` is true; `cls true []` matches every
character. -/
inductive Regexp where
  | fail
  | eps
  | char (c : Char)
  | cls (neg : Bool) (ranges : List (Char × Char))
  | seq (a b : Regexp)
  | alt (a b : Regexp)
  | star (a : Regexp)
deriving DecidableEq, Inhabited

/-- Character membership in a class. -/
def clsMem (neg : Bool) (ranges : List (Char × Char)) (c : Char) : Bool :=
  let inR := ranges.any (fun p => decide (p.1 ≤ c) && decide (c ≤ p.2))
  if neg then !inR else inR

/-- Does the regular expression accept the empty string? -/
def nullable : Regexp → Bool
  | .fail => false
  | .eps => true
  | .char _ => false
  | .cls _ _ => false
  | .seq a b => nullable a && nullable b
  | .alt a b => nullable a || nullable b
  | .star _ => true

/-- Smart sequencing constructor used by the derivative, keeping
derivatives small. -/
def mkSeq : Regexp → Regexp → Regexp
  | .fail, _ => .fail
  | .eps, b => b
  | a, b =>
    match b with
    | .fail => .fail
    | .eps => a
    | _ => .seq a b

/-- Smart alternation constructor used by the derivative. -/
def mkAlt : Regexp → Regexp → Regexp
  | .fail, b => b
  | a, .fail => a
  | a, b => .alt a b

/-- Brzozowski derivative of a regular expression by a character. -/
def deriv : Regexp → Char → Regexp
  | .fail, _ => .fail
  | .eps, _ => .fail
  | .char c, a => if a = c then .eps else .fail
  | .cls n rs, a => if clsMem n rs a then .eps else .fail
  | .seq x y, a =>
    if nullable x then mkAlt (mkSeq (deriv x a) y) (deriv y a)
    else mkSeq (deriv x a) y
  | .alt x y, a => mkAlt (deriv x a) (deriv y a)
  | .star x, a => mkSeq (deriv x a) (.star x)

/-- Whole-string matching by iterated derivatives. -/
def matchFull (r : Regexp) (cs : List Char) : Bool :=
  nullable (cs.foldl deriv r)

/-- A class matching every character (used to express unanchored search). -/
def anyCharR : Regexp := .cls true []

/-- Model of Go's `Regexp.MatchString`: unanchored search, i.e. some
substring of `s` matches `r`. -/
def MatchString (r : Regexp) (s : String) : Bool :=
  matchFull (.seq (.star anyCharR) (.seq r (.star anyCharR))) s.data

/-! ### The `regexp.Compile` model: a recursive-descent parser for the
RE2 fragment used by the repository.  Parse errors mirror RE2's error
conditions on this fragment: an unterminated or empty character class, a
postfix operator with no operand, an operator stacked on a repetition
(other than one lazy `?`), an unmatched parenthesis, and constructs
outside the fragment. -/

/-- Parse the flag letters of a `(?flags)` group.  `sflag` is the current
dot-all flag, `seen` whether at least one letter was read (RE2 rejects
`(?)`). -/
def parseFlagsAux (sflag : Bool) (seen : Bool) : List Char → Except String (Bool × List Char)
  | 's' :: rest => parseFlagsAux true true rest
  | 'i' :: rest => parseFlagsAux sflag true rest
  | 'm' :: rest => parseFlagsAux sflag true rest
  | ')' :: rest =>
    if seen then .ok (sflag, rest) else .error "invalid or unsupported Perl syntax"
  | _ => .error "invalid or unsupported Perl syntax"

/-- Characters with no special meaning when escaped by a backslash. -/
def escapable (c : Char) : Bool :=
  !(c.isAlpha || c.isDigit)

/-- Parse the items of a character class after `[` (and after a possible
`^`), accumulating ranges until the closing `]`. -/
def parseClassItems (neg : Bool) (acc : List (Char × Char)) :
    List Char → Except String (Regexp × List Char)
  | [] => .error "missing closing ]"
  | ']' :: rest =>
    if acc.isEmpty then .error "missing closing ]"
    else .ok (.cls neg acc.reverse, rest)
  | '\\' :: c :: rest =>
    if escapable c then parseClassItems neg ((c, c) :: acc) rest
    else .error "unsupported escape in class"
  | '\\' :: [] => .error "trailing backslash at end of expression"
  | c :: '-' :: d :: rest =>
    if d = ']' then
      -- `c-]` : the dash is a literal item, the class closes after it
      parseClassItems neg (('-', '-') :: (c, c) :: acc) (d :: rest)
    else if c ≤ d then parseClassItems neg ((c, d) :: acc) rest
    else .error "invalid character class range"
  | c :: rest => parseClassItems neg ((c, c) :: acc) rest

/-- Parse a character class after the opening `[`. -/
def parseClass : List Char → Except String (Regexp × List Char)
  | '^' :: rest => parseClassItems true [] rest
  | cs => parseClassItems false [] cs

/-- Apply postfix repetition operators to a parsed atom.  `state` is 0
for a bare atom, 1 after one repetition operator, 2 after a lazy `?`;
RE2 permits exactly one `?` after a repetition and nothing further. -/
def applyPostfix (r : Regexp) (state : Nat) : List Char → Except String (Regexp × List Char)
  | '*' :: rest =>
    match state with
    | 0 => applyPostfix (.star r) 1 rest
    | _ => .error "invalid nested repetition operator"
  | '+' :: rest =>
    match state with
    | 0 => applyPostfix (.seq r (.star r)) 1 rest
    | _ => .error "invalid nested repetition operator"
  | '?' :: rest =>
    match state with
    | 0 => applyPostfix (.alt r .eps) 1 rest
    | 1 => applyPostfix r 2 rest
    | _ => .error "invalid nested repetition operator"
  | cs => .ok (r, cs)

/-- Sequence a new term onto the sequence parsed so far. -/
def seqAppend (a b : Regexp) : Regexp :=
  match a with
  | .eps => b
  | _ => .seq a b

/-- The parser's pending job: an alternation, or a sequence of terms
accumulated onto `acc`.  A single structurally recursive function over a
fuel bound keeps the parser kernel-reducible. -/
inductive PJob where
  | altJ (sflag : Bool)
  | seqJ (sflag : Bool) (acc : Regexp)

/-- Recursive-descent parser.  In `altJ` mode it parses a `|`-separated
alternation; in `seqJ` mode it parses a sequence of terms: groups, flag
groups, classes, escapes, dots and literals, each followed by its postfix
operators, stopping at `|`, `)` or the end of input. -/
def parseRun : Nat → PJob → List Char → Except String (Regexp × List Char)
  | 0, _, _ => .error "expression too complex"
  | fuel + 1, .altJ sflag, cs =>
    match parseRun fuel (.seqJ sflag .eps) cs with
    | .error e => .error e
    | .ok (r, rest) =>
      match rest with
      | '|' :: rest2 =>
        match parseRun fuel (.altJ sflag) rest2 with
        | .error e => .error e
        | .ok (r2, rest3) => .ok (.alt r r2, rest3)
      | _ => .ok (r, rest)
  | fuel + 1, .seqJ sflag acc, cs =>
    match cs with
    | [] => .ok (acc, [])
    | '|' :: _ => .ok (acc, cs)
    | ')' :: _ => .ok (acc, cs)
    | '*' :: _ => .error "missing argument to repetition operator"
    | '+' :: _ => .error "missing argument to repetition operator"
    | '?' :: _ => .error "missing argument to repetition operator"
    | '(' :: '?' :: ':' :: rest =>
      match parseRun fuel (.altJ sflag) rest with
      | .error e => .error e
      | .ok (r, rest2) =>
        match rest2 with
        | ')' :: rest3 =>
          match applyPostfix r 0 rest3 with
          | .error e => .error e
          | .ok (r2, rest4) => parseRun fuel (.seqJ sflag (seqAppend acc r2)) rest4
        | _ => .error "missing closing )"
    | '(' :: '?' :: rest =>
      match parseFlagsAux sflag false rest with
      | .error e => .error e
      | .ok (s2, rest2) => parseRun fuel (.seqJ s2 acc) rest2
    | '(' :: rest =>
      match parseRun fuel (.altJ sflag) rest with
      | .error e => .error e
      | .ok (r, rest2) =>
        match rest2 with
        | ')' :: rest3 =>
          match applyPostfix r 0 rest3 with
          | .error e => .error e
          | .ok (r2, rest4) => parseRun fuel (.seqJ sflag (seqAppend acc r2)) rest4
        | _ => .error "missing closing )"
    | '[' :: rest =>
      match parseClass rest with
      | .error e => .error e
      | .ok (r, rest2) =>
        match applyPostfix r 0 rest2 with
        | .error e => .error e
        | .ok (r2, rest3) => parseRun fuel (.seqJ sflag (seqAppend acc r2)) rest3
    | '\\' :: c :: rest =>
      if escapable c then
        match applyPostfix (.char c) 0 rest with
        | .error e => .error e
        | .ok (r2, rest2) => parseRun fuel (.seqJ sflag (seqAppend acc r2)) rest2
      else .error "unsupported escape in model"
    | '\\' :: [] => .error "trailing backslash at end of expression"
    | '.' :: rest =>
      match applyPostfix
          (if sflag then Regexp.cls true [] else Regexp.cls true [('\n', '\n')]) 0 rest with
      | .error e => .error e
      | .ok (r2, rest2) => parseRun fuel (.seqJ sflag (seqAppend acc r2)) rest2
    | '^' :: _ => .error "anchors outside modelled fragment"
    | '$' :: _ => .error "anchors outside modelled fragment"
    | '{' :: _ => .error "counted repetition outside modelled fragment"
    | '}' :: _ => .error "counted repetition outside modelled fragment"
    | c :: rest =>
      match applyPostfix (.char c) 0 rest with
      | .error e => .error e
      | .ok (r2, rest2) => parseRun fuel (.seqJ sflag (seqAppend acc r2)) rest2

/-- Model of Go's `regexp.Compile` on the supported fragment. -/
def goCompile (s : String) : Except String Regexp :=
  match parseRun (8 * s.data.length + 16) (.altJ false) s.data with
  | .error e => .error e
  | .ok (r, rest) =>
    match rest with
    | [] => .ok r
    | _ => .error "unexpected ): regexp/syntax"

-- Sanity checks of the regexp model against Go's behaviour.
example : (goCompile "[").isOk = false := by decide
example : (goCompile "?").isOk = false := by decide
example : (goCompile "(?s).*?.*").isOk = true := by decide
example : (goCompile "(?s).*a.*").isOk = true := by decide
example : (goCompile ".*[.*").isOk = false := by decide
example : (goCompile ".**").isOk = false := by decide
example :
    (match goCompile ".*a.*" with
     | .ok r => MatchString r "bab"
     | .error _ => false) = true := by decide
example :
    (match goCompile ".*a.*" with
     | .ok r => MatchString r "bb"
     | .error _ => true) = false := by decide

/-! ### The engine's data model and state (`src/engine/engine.go`) -/

/-- `engine.Rule`: a pattern searched in text.  `CompiledPattern` models
the `*regexp.Regexp` field, with `none` for Go's nil pointer (the field
is never populated by JSON/YAML deserialization). -/
structure Rule where
  ID : String
  Pattern : String
  Severity : String
  Description : String
  CompiledPattern : Option Regexp
deriving DecidableEq, Inhabited

/-- `engine.Finding`: a rule match inside a document. -/
structure Finding where
  FileID : String
  RuleID : String
  Severity : String
  Line : Nat
  Context : String
  Description : String
deriving DecidableEq, Inhabited

/-- The engine package's mutable global `currentRules`. -/
structure EngineState where
  currentRules : List Rule
deriving DecidableEq, Inhabited

/-- `engine.SetRules`: replaces the in-memory rule set (the debug log it
may emit does not affect state). -/
def SetRules (rules : List Rule) (_s : EngineState) : EngineState :=
  { currentRules := rules }

/-- `engine.GetRules`: returns the current in-memory rule set. -/
def GetRules (s : EngineState) : List Rule :=
  s.currentRules

/-- The pattern actually handed to `regexp.Compile` by
`LoadRulesFromYAML` (engine.go line 70). -/
def wrapLoadPattern (p : String) : String :=
  "(?s).*" ++ p ++ ".*"

/-- The pattern recompiled inside `Evaluate` just before use
(engine.go line 106). -/
def wrapEvalPattern (p : String) : String :=
  ".*" ++ p ++ ".*"

/-- The compilation loop of `LoadRulesFromYAML` (engine.go lines 69-75):
compile `(?s).*pattern.*` for every rule in order, stopping with an
error naming the rule id at the first failure, otherwise storing the
compiled matcher on each rule. -/
def compileRules : List Rule → Except String (List Rule)
  | [] => .ok []
  | r :: rs =>
    match goCompile (wrapLoadPattern r.Pattern) with
    | .error e => .error ("failed to compile regex for rule " ++ r.ID ++ ": " ++ e)
    | .ok re =>
      match compileRules rs with
      | .error e => .error e
      | .ok rest => .ok ({ r with CompiledPattern := some re } :: rest)

/-- `engine.LoadRulesFromYAML` from the point where the file has been
read and unmarshalled: `src` is the parsed rule list, or the read/parse
error (`os.ReadFile` / `yaml.Unmarshal` failing).  On any error the
function returns before `SetRules`, leaving the state unchanged. -/
def LoadRulesFromYAML (src : Except String (List Rule)) (s : EngineState) :
    Except String Unit × EngineState :=
  match src with
  | .error e => (.error e, s)
  | .ok rules =>
    match compileRules rules with
    | .error e => (.error e, s)
    | .ok compiled => (.ok (), SetRules compiled s)

/-! ### The evaluator (`engine.Evaluate`, engine.go lines 82-130) -/

/-- Model of Go's `strings.Split(text, "\n")` on the character list. -/
def splitOnNl : List Char → List (List Char)
  | [] => [[]]
  | c :: rest =>
    let r := splitOnNl rest
    if c = '\n' then [] :: r
    else
      match r with
      | [] => [[c]]
      | l :: ls => (c :: l) :: ls

/-- `strings.Split(text, "\n")`: the lines of `text`. -/
def splitLines (text : String) : List String :=
  (splitOnNl text.data).map (fun cs => { data := cs })

/-- The `Finding` literal appended by `Evaluate` on a match
(engine.go lines 118-125). -/
def mkFinding (fileID : String) (r : Rule) (lineNo : Nat) (line : String) : Finding :=
  { FileID := fileID, RuleID := r.ID, Severity := r.Severity,
    Line := lineNo, Context := line, Description := r.Description }

/-- The inner rule loop of `Evaluate` for a single line (engine.go lines
94-127), in source order: in debug mode the log statement dereferences
`rule.CompiledPattern` (`.String()`) before the nil check — a nil
`CompiledPattern` there is a panic, modelled as `none`; a rule with a nil
`CompiledPattern` is otherwise skipped; the pattern is recompiled as
`.*pattern.*` and the rule is skipped if that fails; on a match of the
recompiled pattern a finding is appended. -/
def evalLineRules (debug : Bool) (fileID : String) (lineNo : Nat) (line : String) :
    List Rule → Option (List Finding)
  | [] => some []
  | r :: rs =>
    if debug && r.CompiledPattern.isNone then
      none
    else if r.CompiledPattern.isNone then
      evalLineRules debug fileID lineNo line rs
    else
      match goCompile (wrapEvalPattern r.Pattern) with
      | .error _ => evalLineRules debug fileID lineNo line rs
      | .ok re =>
        match evalLineRules debug fileID lineNo line rs with
        | none => none
        | some rest =>
          some ((if MatchString re line then [mkFinding fileID r lineNo line] else []) ++ rest)

/-- The outer line loop of `Evaluate` (engine.go lines 90-128): `i` is
the 0-based index of the first line of `ls` within the text. -/
def evalLines (debug : Bool) (fileID : String) (rules : List Rule) :
    Nat → List String → Option (List Finding)
  | _, [] => some []
  | i, l :: ls =>
    match evalLineRules debug fileID (i + 1) l rules with
    | none => none
    | some fs =>
      match evalLines debug fileID rules (i + 1) ls with
      | none => none
      | some rest => some (fs ++ rest)

/-- `engine.Evaluate`: scans `text` line by line against `rules`.
`none` models a panic (only reachable in debug mode), `some fs` a normal
return. -/
def Evaluate (debug : Bool) (text fileID : String) (rules : List Rule) :
    Option (List Finding) :=
  evalLines debug fileID rules 0 (splitLines text)

/-! ### Specification-side definitions (for the ordering claim) -/

/-- Whether a rule produces a finding on a line under `Evaluate`'s
semantics: its `CompiledPattern` is present, its pattern recompiles as
`.*pattern.*`, and the recompiled pattern matches the line. -/
def RuleFires (r : Rule) (line : String) : Bool :=
  r.CompiledPattern.isSome &&
    (match goCompile (wrapEvalPattern r.Pattern) with
     | .ok re => MatchString re line
     | .error _ => false)

/-- The spec's description of the evaluator's output order (spec §4.2
step 2-3): outer iteration over the lines in text order with 1-based
indices, inner iteration over the rules in supplied order, one finding
per firing rule. -/
def EvaluateOrderedSpec (text fileID : String) (rules : List Rule) : List Finding :=
  ((splitLines text).enum).flatMap
    (fun p => (rules.filter (fun r => RuleFires r p.2)).map
      (fun r => mkFinding fileID r (p.1 + 1) p.2))

-- Sanity checks of the engine model.
example : splitLines "a\nb\nc" = ["a", "b", "c"] := by decide
example : splitLines "" = [""] := by decide
example :
    Evaluate false "a\nb\nc" "f"
      [{ ID := "x", Pattern := "b", Severity := "low", Description := "",
         CompiledPattern := some (Regexp.char 'b') }] =
    some [{ FileID := "f", RuleID := "x", Severity := "low", Line := 2,
            Context := "b", Description := "" }] := by decide

/-! ### Helper lemmas about the evaluator -/

/-- `strings.Split` never returns an empty slice. -/
lemma splitOnNl_ne_nil (cs : List Char) : splitOnNl cs ≠ [] := by
  cases cs with
  | nil => simp [splitOnNl]
  | cons c rest =>
    simp only [splitOnNl]
    by_cases h : c = '\n'
    · simp [h]
    · simp only [h, if_false]
      rcases splitOnNl rest with _ | ⟨l, ls⟩ <;> simp

lemma splitLines_ne_nil (text : String) : splitLines text ≠ [] := by
  simp [splitLines, splitOnNl_ne_nil]

/-- Any successful run of the inner rule loop returns exactly the
findings of the firing rules, in rule order. -/
lemma evalLineRules_some_eq (d : Bool) (fileID : String) (n : Nat) (line : String) :
    ∀ (rules : List Rule) (fs : List Finding),
      evalLineRules d fileID n line rules = some fs →
      fs = (rules.filter (fun r => RuleFires r line)).map
        (fun r => mkFinding fileID r n line) := by
  intro rules
  induction rules with
  | nil =>
    intro fs h
    simp [evalLineRules] at h
    simp [h.symm]
  | cons r rs ih =>
    intro fs h
    rcases hcp : r.CompiledPattern with _ | c
    · have hf : RuleFires r line = false := by simp [RuleFires, hcp]
      cases d with
      | false =>
        simp [evalLineRules, hcp] at h
        simpa [List.filter_cons, hf] using ih fs h
      | true =>
        simp [evalLineRules, hcp] at h
    · rcases hg : goCompile (wrapEvalPattern r.Pattern) with e | re
      · have hf : RuleFires r line = false := by simp [RuleFires, hcp, hg]
        simp [evalLineRules, hcp, hg] at h
        simpa [List.filter_cons, hf] using ih fs h
      · have hf : RuleFires r line = MatchString re line := by
          simp [RuleFires, hcp, hg]
        rcases hrec : evalLineRules d fileID n line rs with _ | rest
        · simp [evalLineRules, hcp, hg, hrec] at h
        · simp [evalLineRules, hcp, hg, hrec] at h
          have hrest := ih rest hrec
          cases hm : MatchString re line <;>
            simp [hm] at h <;>
            simp [List.filter_cons, hf, hm, h.symm, hrest]

/-- With debug mode off the inner rule loop always succeeds, returning
the findings of the firing rules in rule order. -/
lemma evalLineRules_false_eq (fileID : String) (n : Nat) (line : String)
    (rules : List Rule) :
    evalLineRules false fileID n line rules =
      some ((rules.filter (fun r => RuleFires r line)).map
        (fun r => mkFinding fileID r n line)) := by
  induction rules with
  | nil => rfl
  | cons r rs ih =>
    rcases hcp : r.CompiledPattern with _ | c
    · have hf : RuleFires r line = false := by simp [RuleFires, hcp]
      simp [evalLineRules, hcp, List.filter_cons, hf, ih]
    · rcases hg : goCompile (wrapEvalPattern r.Pattern) with e | re
      · have hf : RuleFires r line = false := by simp [RuleFires, hcp, hg]
        simp [evalLineRules, hcp, hg, List.filter_cons, hf, ih]
      · have hf : RuleFires r line = MatchString re line := by
          simp [RuleFires, hcp, hg]
        cases hm : MatchString re line <;>
          simp [evalLineRules, hcp, hg, ih, List.filter_cons, hf, hm]

/-- Any successful run of the outer line loop returns the per-line
findings concatenated in line order. -/
lemma evalLines_some_eq (d : Bool) (fileID : String) (rules : List Rule) :
    ∀ (ls : List String) (i : Nat) (fs : List Finding),
      evalLines d fileID rules i ls = some fs →
      fs = (ls.enumFrom i).flatMap
        (fun p => (rules.filter (fun r => RuleFires r p.2)).map
          (fun r => mkFinding fileID r (p.1 + 1) p.2)) := by
  intro ls
  induction ls with
  | nil =>
    intro i fs h
    simp [evalLines] at h
    simp [h.symm]
  | cons l ls ih =>
    intro i fs h
    rcases hline : evalLineRules d fileID (i + 1) l rules with _ | lfs
    · simp [evalLines, hline] at h
    · rcases hrest : evalLines d fileID rules (i + 1) ls with _ | rest
      · simp [evalLines, hline, hrest] at h
      · simp [evalLines, hline, hrest] at h
        have h1 := evalLineRules_some_eq d fileID (i + 1) l rules lfs hline
        have h2 := ih (i + 1) rest hrest
        simp [List.enumFrom, h.symm, h1, h2]

/-- With debug mode off the outer line loop always succeeds. -/
lemma evalLines_false_eq (fileID : String) (rules : List Rule) :
    ∀ (ls : List String) (i : Nat),
      evalLines false fileID rules i ls =
        some ((ls.enumFrom i).flatMap
          (fun p => (rules.filter (fun r => RuleFires r p.2)).map
            (fun r => mkFinding fileID r (p.1 + 1) p.2))) := by
  intro ls
  induction ls with
  | nil => intro i; rfl
  | cons l ls ih =>
    intro i
    simp [evalLines, evalLineRules_false_eq, ih, List.enumFrom]

/-- With debug mode off, `Evaluate` returns exactly the findings
described by the spec-side `EvaluateOrderedSpec`. -/
lemma Evaluate_false_eq (text fileID : String) (rules : List Rule) :
    Evaluate false text fileID rules = some (EvaluateOrderedSpec text fileID rules) := by
  unfold Evaluate EvaluateOrderedSpec
  rw [evalLines_false_eq]
  rfl

/-- In debug mode the inner rule loop panics as soon as it reaches a rule
with a nil `CompiledPattern` (the `.String()` call in the debug log
dereferences the nil pointer before the nil check). -/
lemma evalLineRules_debug_nil (fileID : String) (n : Nat) (line : String) :
    ∀ (rules : List Rule) (r : Rule), r ∈ rules → r.CompiledPattern = none →
      evalLineRules true fileID n line rules = none := by
  intro rules
  induction rules with
  | nil => intro r h; cases h
  | cons r0 rs ih =>
    intro r hmem hr
    rcases List.mem_cons.mp hmem with rfl | hmem2
    · simp [evalLineRules, hr]
    · rcases hcp : r0.CompiledPattern with _ | c
      · simp [evalLineRules, hcp]
      · rcases hg : goCompile (wrapEvalPattern r0.Pattern) with e | re
        · simpa [evalLineRules, hcp, hg] using ih r hmem2 hr
        · simp [evalLineRules, hcp, hg, ih r hmem2 hr]

/-! ### Helper lemmas about the load path -/

/-- If every rule's wrapped pattern compiles, the compilation loop of
`LoadRulesFromYAML` succeeds — no other property of the rules is
examined. -/
lemma compileRules_ok_of_forall :
    ∀ (rules : List Rule),
      (∀ r ∈ rules, (goCompile (wrapLoadPattern r.Pattern)).isOk = true) →
      ∃ cs, compileRules rules = .ok cs := by
  intro rules
  induction rules with
  | nil => exact fun _ => ⟨[], rfl⟩
  | cons r rs ih =>
    intro h
    rcases hg : goCompile (wrapLoadPattern r.Pattern) with e | re
    · have := h r (List.mem_cons_self r rs)
      simp [hg, Except.isOk, Except.toBool] at this
    · rcases ih (fun r2 h2 => h r2 (List.mem_cons_of_mem r h2)) with ⟨cs, hcs⟩
      exact ⟨{ r with CompiledPattern := some re } :: cs,
        by simp [compileRules, hg, hcs]⟩

/-- If some rule's wrapped pattern fails to compile, the compilation
loop fails with the error of the first such rule, naming its id. -/
lemma compileRules_error_of_mem :
    ∀ (rules : List Rule) (r : Rule), r ∈ rules →
      (goCompile (wrapLoadPattern r.Pattern)).isOk = false →
      ∃ r2 msg, r2 ∈ rules ∧ goCompile (wrapLoadPattern r2.Pattern) = .error msg ∧
        compileRules rules =
          .error ("failed to compile regex for rule " ++ r2.ID ++ ": " ++ msg) := by
  intro rules
  induction rules with
  | nil => intro r h; cases h
  | cons r0 rs ih =>
    intro r hmem hbad
    rcases hg : goCompile (wrapLoadPattern r0.Pattern) with e | re
    · exact ⟨r0, e, List.mem_cons_self r0 rs, hg, by simp [compileRules, hg]⟩
    · rcases List.mem_cons.mp hmem with rfl | hmem2
      · simp [hg, Except.isOk, Except.toBool] at hbad
      · rcases ih r hmem2 hbad with ⟨r2, msg, hm, hg2, hcr⟩
        exact ⟨r2, msg, List.mem_cons_of_mem r0 hm, hg2,
          by simp [compileRules, hg, hcr]⟩

/-! ### Concrete fixtures used by the claim theorems -/

/-- An engine state with no active rules. -/
def st0 : EngineState := { currentRules := [] }

/-- A rule-set definition with a duplicate id (`r1` twice) and a severity
(`critical`) outside the allowed set. -/
def dupBadDef : List Rule :=
  [{ ID := "r1", Pattern := "a", Severity := "critical", Description := "first",
     CompiledPattern := none },
   { ID := "r1", Pattern := "b", Severity := "high", Description := "second",
     CompiledPattern := none }]

/-- The spec's bad-pattern rule `{id:"bad", pattern:"["}`, as a caller
constructs it: no compiled matcher. -/
def badRuleC2 : Rule :=
  { ID := "bad", Pattern := "[", Severity := "high", Description := "",
    CompiledPattern := none }

/-- The spec's good rule `{id:"good", pattern:"a"}`, as a caller
constructs it: no compiled matcher. -/
def goodRuleC2 : Rule :=
  { ID := "good", Pattern := "a", Severity := "low", Description := "",
    CompiledPattern := none }

/-- The spec's line-indexing rule `{id:"x", pattern:"b"}`, as a caller
constructs it: no compiled matcher. -/
def xRuleC3 : Rule :=
  { ID := "x", Pattern := "b", Severity := "", Description := "",
    CompiledPattern := none }

/-- A rule whose pattern `?` does not compile on its own, though the
wrapped `(?s).*?.*` does. -/
def qRule : Rule :=
  { ID := "q1", Pattern := "?", Severity := "low", Description := "lazy",
    CompiledPattern := none }

/-- A rule whose pattern `[` fails to compile even after wrapping. -/
def brRule : Rule :=
  { ID := "br", Pattern := "[", Severity := "high", Description := "",
    CompiledPattern := none }

/-- A fully loaded rule, with a compiled matcher present. -/
def cRule : Rule :=
  { ID := "good", Pattern := "a", Severity := "low", Description := "d",
    CompiledPattern := some (Regexp.char 'a') }

/-- A rule with a nil compiled matcher, used to exhibit the debug-mode
panic. -/
def nilRule : Rule :=
  { ID := "n", Pattern := "a", Severity := "low", Description := "",
    CompiledPattern := none }

/-! ### Claim theorems -/

/-- Claim C1, counterexample: loading the rule-set definition
`dupBadDef` — two rules with id `r1`, one with severity `critical` —
succeeds (no validation error) and replaces the previously active rule
set, contradicting the claim that such a load fails and leaves the
active set unchanged. -/
theorem load_accepts_duplicate_id_and_bad_severity :
    (LoadRulesFromYAML (Except.ok dupBadDef) st0).1.isOk = true ∧
    GetRules (LoadRulesFromYAML (Except.ok dupBadDef) st0).2 ≠ GetRules st0 := by
  decide

/-- Claim C1, amended: the load path performs no duplicate-id and no
severity validation.  Whenever every rule's wrapped pattern
`(?s).*pattern.*` compiles, `LoadRulesFromYAML` succeeds — regardless of
the rules' ids and severities — and replaces the active set with the
compiled rules; only source read/parse errors and pattern-compilation
failures are rejected. -/
theorem load_no_id_or_severity_validation (rules : List Rule) (s : EngineState)
    (h : ∀ r ∈ rules, (goCompile (wrapLoadPattern r.Pattern)).isOk = true) :
    (LoadRulesFromYAML (Except.ok rules) s).1 = Except.ok () ∧
    ∃ cs, compileRules rules = Except.ok cs ∧
      (LoadRulesFromYAML (Except.ok rules) s).2 = SetRules cs s := by
  rcases compileRules_ok_of_forall rules h with ⟨cs, hcs⟩
  exact ⟨by simp [LoadRulesFromYAML, hcs], cs, hcs, by simp [LoadRulesFromYAML, hcs]⟩

/-- Witness for the amended claim C1, at the duplicate-id,
invalid-severity definition `dupBadDef`. -/
theorem load_no_id_or_severity_validation_witness :
    (LoadRulesFromYAML (Except.ok dupBadDef) st0).1 = Except.ok () ∧
    ∃ cs, compileRules dupBadDef = Except.ok cs ∧
      (LoadRulesFromYAML (Except.ok dupBadDef) st0).2 = SetRules cs st0 :=
  load_no_id_or_severity_validation dupBadDef st0 (by decide)

/-- Claim C2: evaluating the spec's example — a bad-pattern rule
followed by a good rule, both constructed from id and pattern alone —
returns no findings at all, not the good rule's finding: `Evaluate`
skips every rule whose `CompiledPattern` is nil (engine.go line 99)
before it recompiles the pattern it actually matches with.  The second
conjunct shows the expected finding appears as soon as the good rule
carries any compiled matcher, isolating the nil check as the cause. -/
theorem evaluate_bad_pattern_example_loses_good_finding :
    Evaluate false "a" "f" [badRuleC2, goodRuleC2] = some [] ∧
    Evaluate false "a" "f"
      [badRuleC2, { goodRuleC2 with CompiledPattern := some (Regexp.char 'a') }] =
      some [mkFinding "f" goodRuleC2 1 "a"] := by
  decide

/-- Claim C3: evaluating the spec's line-indexing example
`evaluate("a\nb\nc", "f", [{id:"x", pattern:"b"}])` — the rule
constructed from id and pattern alone — returns no findings instead of
one finding with line 2 and context `"b"`, because of the nil
`CompiledPattern` check; with a compiled matcher present the finding is
exactly as the claim states. -/
theorem evaluate_line_index_example_loses_finding :
    Evaluate false "a\nb\nc" "f" [xRuleC3] = some [] ∧
    Evaluate false "a\nb\nc" "f"
      [{ xRuleC3 with CompiledPattern := some (Regexp.char 'b') }] =
      some [{ FileID := "f", RuleID := "x", Severity := "", Line := 2,
              Context := "b", Description := "" }] := by
  decide

/-- Claim C4: loading is atomic with respect to the active rule set.  If
`LoadRulesFromYAML` returns an error — a source read/parse failure or a
failing pattern compilation — the engine state is exactly what it was
before the call; if it returns success, the parsed rules all compiled
and the state is the result of `SetRules` on the fully compiled set. -/
theorem load_atomic (src : Except String (List Rule)) (s : EngineState) :
    ((∃ e, (LoadRulesFromYAML src s).1 = Except.error e) →
      (LoadRulesFromYAML src s).2 = s) ∧
    ((LoadRulesFromYAML src s).1 = Except.ok () →
      ∃ rules cs, src = Except.ok rules ∧ compileRules rules = Except.ok cs ∧
        (LoadRulesFromYAML src s).2 = SetRules cs s) := by
  rcases src with e | rules
  · refine ⟨fun _ => rfl, fun h => ?_⟩
    simp [LoadRulesFromYAML] at h
  · rcases hcs : compileRules rules with e2 | cs
    · refine ⟨fun _ => by simp [LoadRulesFromYAML, hcs], fun h => ?_⟩
      simp [LoadRulesFromYAML, hcs] at h
    · refine ⟨?_, fun _ => ⟨rules, cs, rfl, hcs, by simp [LoadRulesFromYAML, hcs]⟩⟩
      rintro ⟨e, he⟩
      simp [LoadRulesFromYAML, hcs] at he

/-- Witness for claim C4, at a failing source read. -/
theorem load_atomic_witness :
    (LoadRulesFromYAML (Except.error "no such file") st0).2 = st0 :=
  (load_atomic (Except.error "no such file") st0).1 ⟨"no such file", rfl⟩

/-- Claim C5, counterexample: the rule pattern `?` fails to compile as a
regular expression on its own, yet loading a definition containing it
succeeds — `LoadRulesFromYAML` compiles `(?s).*?.*`, where the `?`
becomes a lazy-repetition marker.  Load success is therefore not
equivalent to every rule's own pattern being compilable. -/
theorem load_accepts_uncompilable_question_pattern :
    (goCompile "?").isOk = false ∧
    (LoadRulesFromYAML (Except.ok [qRule]) st0).1.isOk = true := by
  decide

/-- Claim C5, amended: the load path rejects a definition exactly when
some rule's wrapped pattern `(?s).*pattern.*` fails to compile; the
error reported is that of the first such rule and carries its id and the
underlying compiler error, and the active set is unchanged. -/
theorem load_rejects_wrapped_uncompilable (rules : List Rule) (s : EngineState)
    (r : Rule) (hmem : r ∈ rules)
    (hbad : (goCompile (wrapLoadPattern r.Pattern)).isOk = false) :
    ∃ r2 msg, r2 ∈ rules ∧ goCompile (wrapLoadPattern r2.Pattern) = Except.error msg ∧
      (LoadRulesFromYAML (Except.ok rules) s).1 =
        Except.error ("failed to compile regex for rule " ++ r2.ID ++ ": " ++ msg) ∧
      (LoadRulesFromYAML (Except.ok rules) s).2 = s := by
  rcases compileRules_error_of_mem rules r hmem hbad with ⟨r2, msg, hm, hg2, hcr⟩
  exact ⟨r2, msg, hm, hg2, by simp [LoadRulesFromYAML, hcr],
    by simp [LoadRulesFromYAML, hcr]⟩

/-- Witness for the amended claim C5, at a definition containing the
pattern `[`, whose wrapped form also fails to compile. -/
theorem load_rejects_wrapped_uncompilable_witness :
    ∃ r2 msg, r2 ∈ [brRule] ∧ goCompile (wrapLoadPattern r2.Pattern) = Except.error msg ∧
      (LoadRulesFromYAML (Except.ok [brRule]) st0).1 =
        Except.error ("failed to compile regex for rule " ++ r2.ID ++ ": " ++ msg) ∧
      (LoadRulesFromYAML (Except.ok [brRule]) st0).2 = st0 :=
  load_rejects_wrapped_uncompilable [brRule] st0 brRule (List.mem_cons_self brRule [])
    (by decide)

/-- Claim C6: the findings returned by `Evaluate` are in encounter
order — the outer iteration is over the lines of the text in order (with
1-based indices), the inner iteration over the rules in the supplied
order — as expressed by the spec-side `EvaluateOrderedSpec`, whose outer
`flatMap` runs over the enumerated lines and whose inner `map` runs over
the rule list filtered to the firing rules. -/
theorem evaluate_encounter_order (text fileID : String) (rules : List Rule) :
    Evaluate false text fileID rules = some (EvaluateOrderedSpec text fileID rules) :=
  Evaluate_false_eq text fileID rules

/-- Claim C7: `Evaluate` is deterministic.  Any two calls on the same
text, file id and rule list that return finding lists return the same
list, whatever the ambient debug-mode state of either call. -/
theorem evaluate_deterministic (d1 d2 : Bool) (text fileID : String)
    (rules : List Rule) (l1 l2 : List Finding)
    (h1 : Evaluate d1 text fileID rules = some l1)
    (h2 : Evaluate d2 text fileID rules = some l2) : l1 = l2 := by
  have e1 := evalLines_some_eq d1 fileID rules (splitLines text) 0 l1 h1
  have e2 := evalLines_some_eq d2 fileID rules (splitLines text) 0 l2 h2
  rw [e1, e2]

/-- Witness for claim C7, comparing a debug-mode call with a normal
call on the same input. -/
theorem evaluate_deterministic_witness :
    [mkFinding "f" cRule 1 "a"] = [mkFinding "f" cRule 1 "a"] :=
  evaluate_deterministic true false "a" "f" [cRule]
    [mkFinding "f" cRule 1 "a"] [mkFinding "f" cRule 1 "a"] (by decide) (by decide)

/-- Claim C8: `GetRules` immediately after `SetRules rules` returns
exactly `rules`.  The theorem holds for every rule list whatsoever —
duplicate ids, invalid severities, nil compiled patterns — reflecting
that `SetRules` performs no validation. -/
theorem setRules_getRules_roundtrip (rules : List Rule) (s : EngineState) :
    GetRules (SetRules rules s) = rules :=
  rfl

/-- Claim C10: in debug mode, `Evaluate` logs
`rule.CompiledPattern.String()` (engine.go line 97) before the nil check
on line 99, so on any text a rule list containing a rule with a nil
`CompiledPattern` makes `Evaluate` panic (`none`); with debug mode off
the nil rule is skipped safely and `Evaluate` returns normally. -/
theorem evaluate_debug_nil_panics (text fileID : String) (rules : List Rule)
    (h : ∃ r ∈ rules, r.CompiledPattern = none) :
    Evaluate true text fileID rules = none ∧
    ∃ fs, Evaluate false text fileID rules = some fs := by
  rcases h with ⟨r, hmem, hr⟩
  constructor
  · unfold Evaluate
    rcases hsp : splitLines text with _ | ⟨l, ls⟩
    · exact absurd hsp (splitLines_ne_nil text)
    · simp [evalLines, evalLineRules_debug_nil fileID 1 l rules r hmem hr]
  · exact ⟨EvaluateOrderedSpec text fileID rules, Evaluate_false_eq text fileID rules⟩

/-- Witness for claim C10, at text `"a"` and a single nil-matcher
rule. -/
theorem evaluate_debug_nil_panics_witness :
    Evaluate true "a" "f" [nilRule] = none ∧
    ∃ fs, Evaluate false "a" "f" [nilRule] = some fs :=
  evaluate_debug_nil_panics "a" "f" [nilRule]
    ⟨nilRule, List.mem_cons_self nilRule [], rfl⟩

end DWS
